import Mathlib

/-!
Verification of the interview-lab orchestration pipeline
(`src/interview_lab/pipeline.py`, `src/interview_lab/models.py`).

The development shallowly embeds:
* the JSON decoding behavior of Python's `json` module that the pipeline
  relies on (`json.loads`, `JSONDecoder.raw_decode`), restricted to the
  syntax actually exercised here (objects, arrays, strings with the
  standard escapes, integers/floats, literals);
* the tolerant JSON-object extraction `InterviewPipeline._extract_json_text`
  together with `_iter_json_object_candidates` and the fence-stripping
  regular expression `_JSON_FENCE_RE`;
* the strict contract models `QuestionV1` / `EvaluationV1` with their
  field-level rules and the cross-field model validators
  `validate_coding_rules` / `validate_followup_logic`;
* parsing + validation (`_parse_and_validate`, `_try_parse_and_validate`),
  the repair payload builder `_build_repair_payload`, and the bounded
  primary/repair retry loop `_run_with_repair`.
-/

namespace InterviewLab

/-- The backtick character (0x60), named to keep source text readable. -/
def backtick : Char := Char.ofNat 96

/-- Whitespace characters recognized by the JSON tokenizer
(`json.decoder`: space, tab, newline, carriage return). -/
def isJsonWs (c : Char) : Bool :=
  c = ' ' || c = '\t' || c = '\n' || c = '\r'

/-- Whitespace characters stripped by Python's `str.strip()` and matched by
the regex class `\s` (ASCII range: space, tab, newline, carriage return,
vertical tab 0x0B, form feed 0x0C). -/
def isPyWs (c : Char) : Bool :=
  c = ' ' || c = '\t' || c = '\n' || c = '\r' || c = Char.ofNat 11 || c = Char.ofNat 12

/-- Skip JSON inter-token whitespace. -/
def skipJsonWs (l : List Char) : List Char := l.dropWhile isJsonWs

/-- Python `str.strip()` on a character list: drop `\s`-style whitespace
from both ends. -/
def pyStrip (l : List Char) : List Char :=
  ((l.dropWhile isPyWs).reverse.dropWhile isPyWs).reverse

/-- Python `str.strip()` on a `String`. -/
def pyStripStr (s : String) : String := String.mk (pyStrip s.toList)

/-- JSON values as produced by Python's `json.loads`.  Number values keep
their source lexeme; none of the verified properties inspect numeric
magnitudes beyond integer-valued fields. -/
inductive JsonValue where
  | null : JsonValue
  | bool (b : Bool) : JsonValue
  | num (lexeme : String) : JsonValue
  | str (s : String) : JsonValue
  | arr (items : List JsonValue) : JsonValue
  | obj (members : List (String × JsonValue)) : JsonValue

/-- Insert a key/value pair into an object the way Python dicts do while
`json` builds them: a duplicate key keeps its original position and takes
the newest value. -/
def insertMember (ms : List (String × JsonValue)) (k : String) (v : JsonValue) :
    List (String × JsonValue) :=
  if ms.any (fun p => p.1 = k) then
    ms.map (fun p => if p.1 = k then (k, v) else p)
  else
    ms ++ [(k, v)]

/-- Value of a hexadecimal digit, `none` for any other character. -/
def hexVal (c : Char) : Option Nat :=
  if '0' ≤ c && c ≤ '9' then some (c.toNat - 48)
  else if 'a' ≤ c && c ≤ 'f' then some (c.toNat - 87)
  else if 'A' ≤ c && c ≤ 'F' then some (c.toNat - 55)
  else none

/-- Decode one string body (after the opening quote) following Python's
strict JSON string rules: `"` terminates, `\` introduces one of the nine
escapes, raw control characters below 0x20 are rejected.  Surrogate-pair
combination of consecutive `\uXXXX` escapes is not modelled; all inputs in
scope stay within the Basic Multilingual Plane. -/
def parseStringChars : Nat → List Char → List Char → Option (String × List Char)
  | 0, _, _ => none
  | _, [], _ => none
  | fuel + 1, c :: rest, acc =>
    if c = '"' then
      some (String.mk acc.reverse, rest)
    else if c = '\\' then
      match rest with
      | [] => none
      | e :: r2 =>
        if e = '"' then parseStringChars fuel r2 ('"' :: acc)
        else if e = '\\' then parseStringChars fuel r2 ('\\' :: acc)
        else if e = '/' then parseStringChars fuel r2 ('/' :: acc)
        else if e = 'b' then parseStringChars fuel r2 (Char.ofNat 8 :: acc)
        else if e = 'f' then parseStringChars fuel r2 (Char.ofNat 12 :: acc)
        else if e = 'n' then parseStringChars fuel r2 ('\n' :: acc)
        else if e = 'r' then parseStringChars fuel r2 ('\r' :: acc)
        else if e = 't' then parseStringChars fuel r2 ('\t' :: acc)
        else if e = 'u' then
          match r2 with
          | h1 :: h2 :: h3 :: h4 :: r3 =>
            match hexVal h1, hexVal h2, hexVal h3, hexVal h4 with
            | some v1, some v2, some v3, some v4 =>
              parseStringChars fuel r3
                (Char.ofNat (4096 * v1 + 256 * v2 + 16 * v3 + v4) :: acc)
            | _, _, _, _ => none
          | _ => none
        else none
    else if c.toNat < 32 then none
    else parseStringChars fuel rest (c :: acc)

/-- Split a leading run of decimal digits from a character list. -/
def spanDigits (l : List Char) : List Char × List Char :=
  (l.takeWhile Char.isDigit, l.dropWhile Char.isDigit)

/-- Match Python's `NUMBER_RE` at the head of the input:
`-?(0|[1-9][0-9]*)(\.[0-9]+)?([eE][+-]?[0-9]+)?`, returning the matched
lexeme and the rest.  A fractional point or exponent marker not followed by
a digit is left unconsumed, exactly as the regex backtracks. -/
def parseNumberAt (l : List Char) : Option (JsonValue × List Char) :=
  let (sign, s1) :=
    match l with
    | '-' :: r => (['-'], r)
    | _ => (([] : List Char), l)
  match s1 with
  | [] => none
  | c :: r =>
    if ¬ c.isDigit then none
    else
      let (intPart, afterInt) :=
        if c = '0' then (['0'], r)
        else spanDigits (c :: r)
      let (fracPart, afterFrac) :=
        match afterInt with
        | '.' :: r2 =>
          let (ds, rest2) := spanDigits r2
          if ds = [] then (([] : List Char), afterInt)
          else ('.' :: ds, rest2)
        | _ => (([] : List Char), afterInt)
      let (expPart, afterExp) :=
        match afterFrac with
        | e :: r3 =>
          if e = 'e' || e = 'E' then
            let (esign, r4) :=
              match r3 with
              | '+' :: r5 => (['+'], r5)
              | '-' :: r5 => (['-'], r5)
              | _ => (([] : List Char), r3)
            let (ds, rest4) := spanDigits r4
            if ds = [] then (([] : List Char), afterFrac)
            else (e :: (esign ++ ds), rest4)
          else (([] : List Char), afterFrac)
        | _ => (([] : List Char), afterFrac)
      some (JsonValue.num (String.mk (sign ++ intPart ++ fracPart ++ expPart)), afterExp)

mutual

/-- Decode one JSON value at the head of the input (no leading-whitespace
skip), mirroring `json.scanner.py_make_scanner`'s `_scan_once`. -/
def parseValue : Nat → List Char → Option (JsonValue × List Char)
  | 0, _ => none
  | _, [] => none
  | fuel + 1, c :: rest =>
    if c = '{' then parseObjBody fuel (skipJsonWs rest)
    else if c = '[' then parseArrBody fuel (skipJsonWs rest)
    else if c = '"' then
      match parseStringChars (rest.length + 1) rest [] with
      | some (s, r) => some (JsonValue.str s, r)
      | none => none
    else if c = 't' then
      match rest with
      | 'r' :: 'u' :: 'e' :: r => some (JsonValue.bool true, r)
      | _ => none
    else if c = 'f' then
      match rest with
      | 'a' :: 'l' :: 's' :: 'e' :: r => some (JsonValue.bool false, r)
      | _ => none
    else if c = 'n' then
      match rest with
      | 'u' :: 'l' :: 'l' :: r => some (JsonValue.null, r)
      | _ => none
    else if c = 'N' then
      match rest with
      | 'a' :: 'N' :: r => some (JsonValue.num "NaN", r)
      | _ => none
    else if c = 'I' then
      match rest with
      | 'n' :: 'f' :: 'i' :: 'n' :: 'i' :: 't' :: 'y' :: r =>
        some (JsonValue.num "Infinity", r)
      | _ => none
    else if c = '-' then
      match parseNumberAt (c :: rest) with
      | some res => some res
      | none =>
        match rest with
        | 'I' :: 'n' :: 'f' :: 'i' :: 'n' :: 'i' :: 't' :: 'y' :: r =>
          some (JsonValue.num "-Infinity", r)
        | _ => none
    else if c.isDigit then parseNumberAt (c :: rest)
    else none

/-- Decode an object body after the opening brace (whitespace skipped). -/
def parseObjBody : Nat → List Char → Option (JsonValue × List Char)
  | 0, _ => none
  | fuel + 1, l =>
    match l with
    | '}' :: r => some (JsonValue.obj [], r)
    | _ => parseMembers fuel l []

/-- Decode the members of a non-empty object, accumulating dict-style. -/
def parseMembers : Nat → List Char → List (String × JsonValue) →
    Option (JsonValue × List Char)
  | 0, _, _ => none
  | fuel + 1, l, acc =>
    match l with
    | '"' :: r =>
      match parseStringChars (r.length + 1) r [] with
      | none => none
      | some (key, r1) =>
        match skipJsonWs r1 with
        | ':' :: r2 =>
          match parseValue fuel (skipJsonWs r2) with
          | none => none
          | some (v, r3) =>
            let acc2 := insertMember acc key v
            match skipJsonWs r3 with
            | ',' :: r4 => parseMembers fuel (skipJsonWs r4) acc2
            | '}' :: r4 => some (JsonValue.obj acc2, r4)
            | _ => none
        | _ => none
    | _ => none

/-- Decode an array body after the opening bracket (whitespace skipped). -/
def parseArrBody : Nat → List Char → Option (JsonValue × List Char)
  | 0, _ => none
  | fuel + 1, l =>
    match l with
    | ']' :: r => some (JsonValue.arr [], r)
    | _ => parseItems fuel l []

/-- Decode the items of a non-empty array. -/
def parseItems : Nat → List Char → List JsonValue → Option (JsonValue × List Char)
  | 0, _, _ => none
  | fuel + 1, l, acc =>
    match parseValue fuel l with
    | none => none
    | some (v, r) =>
      match skipJsonWs r with
      | ',' :: r2 => parseItems fuel (skipJsonWs r2) (acc ++ [v])
      | ']' :: r2 => some (JsonValue.arr (acc ++ [v]), r2)
      | _ => none

end

/-- `JSONDecoder.raw_decode` on a character list: decode one value starting
at index 0 (leading whitespace is an error), returning the value and the
unconsumed suffix.  The fuel is generous enough for any input in scope. -/
def rawDecode (l : List Char) : Option (JsonValue × List Char) :=
  parseValue (2 * l.length + 2) l

/-- `json.loads` on a character list: optional surrounding whitespace
around exactly one JSON value. -/
def loadsL (l : List Char) : Option JsonValue :=
  match rawDecode (skipJsonWs l) with
  | some (v, rest) => if skipJsonWs rest = [] then some v else none
  | none => none

/-- `json.loads` on a `String`. -/
def loads (s : String) : Option JsonValue := loadsL s.toList

/-- One application of the leading alternative of the fence regex
`_JSON_FENCE_RE` (three backticks at the start, an optional
case-insensitive json language tag, then any whitespace). -/
def stripLeadingFence (l : List Char) : List Char :=
  if l.take 3 = [backtick, backtick, backtick] then
    let r := l.drop 3
    let r2 := if (r.take 4).map Char.toLower = ['j', 's', 'o', 'n'] then r.drop 4 else r
    r2.dropWhile isPyWs
  else l

/-- One application of the trailing alternative of the fence regex
`_JSON_FENCE_RE`: a closing fence of three backticks at the very end of
the text, together with the run of whitespace right before it. -/
def stripTrailingFence (l : List Char) : List Char :=
  let r := l.reverse
  if r.take 3 = [backtick, backtick, backtick] then
    ((r.drop 3).dropWhile isPyWs).reverse
  else l

/-- Index of the first occurrence of a character (`str.find`). -/
def firstIdxOf (c : Char) : List Char → Option Nat
  | [] => none
  | a :: t => if a = c then some 0 else (firstIdxOf c t).map (· + 1)

/-- Index of the last occurrence of a character (`str.rfind`). -/
def lastIdxOf (c : Char) (l : List Char) : Option Nat :=
  (firstIdxOf c l.reverse).map (fun i => l.length - 1 - i)

/-- Python slice `text[i : j + 1]` (both endpoints in range). -/
def sliceIncl (i j : Nat) (l : List Char) : List Char :=
  (l.drop i).take (j + 1 - i)

/-- `_iter_json_object_candidates`: at every position holding a brace, try
`raw_decode`; collect the exact text of every decode that yields a dict,
leftmost first. -/
def iterJsonObjectCandidates : List Char → List (List Char)
  | [] => []
  | c :: rest =>
    let tailCands := iterJsonObjectCandidates rest
    if c = '{' then
      match rawDecode (c :: rest) with
      | some (JsonValue.obj _, remaining) =>
        ((c :: rest).take ((c :: rest).length - remaining.length)) :: tailCands
      | _ => tailCands
    else tailCands

/-- Steps 1 and 2 of `_extract_json_text`: strip outer whitespace and
leading byte-order marks, then one optional markdown fence pair, then
strip again. -/
def normalizeRaw (raw : List Char) : List Char :=
  let t0 := (pyStrip raw).dropWhile (fun c => c = Char.ofNat 65279)
  pyStrip (stripTrailingFence (stripLeadingFence t0))

/-- `InterviewPipeline._extract_json_text` on a character list: after
normalizing, try the first-brace..last-brace fast path and fall back to
the candidate scan; if nothing decodes, return the normalized text. -/
def extractJsonTextL (raw : List Char) : List Char :=
  let text := normalizeRaw raw
  let viaScan :=
    match (iterJsonObjectCandidates text).find? (fun cand =>
      match loadsL cand with
      | some (JsonValue.obj _) => true
      | _ => false) with
    | some cand => cand
    | none => text
  match firstIdxOf '{' text, lastIdxOf '}' text with
  | some s, some e =>
    if s < e then
      let candidate := sliceIncl s e text
      if (loadsL candidate).isSome then candidate else viaScan
    else viaScan
  | _, _ => viaScan

/-- `InterviewPipeline._extract_json_text` on a `String`. -/
def extractJsonText (s : String) : String := String.mk (extractJsonTextL s.toList)

/-- An opening markdown fence on its own line, with the json language tag. -/
def fenceOpenChars : List Char :=
  ['\n', backtick, backtick, backtick, 'j', 's', 'o', 'n', '\n']

/-- A closing markdown fence on its own line. -/
def fenceCloseChars : List Char := ['\n', backtick, backtick, backtick, '\n']

/-- Interview lane taxonomy (`models.Track`). -/
inductive Track where
  | ai : Track
  | backend : Track
  | frontend : Track
deriving DecidableEq, Repr

/-- Question mode taxonomy (`models.QuestionType`). -/
inductive QuestionType where
  | theory : QuestionType
  | coding : QuestionType
deriving DecidableEq, Repr

/-- Contract for coding-specific content (`models.CodingPayloadV1`),
holding already whitespace-normalized field values. -/
structure CodingPayloadV1 where
  language : String
  starter_code : String
  requirements : List String
  tests : String
deriving DecidableEq, Repr

/-- Contract for a generated interview question (`models.QuestionV1`). -/
structure QuestionV1 where
  track : Track
  question_type : QuestionType
  difficulty : Int
  question : String
  expected_points : List String
  followups : List String
  red_flags : List String
  coding : Option CodingPayloadV1
deriving DecidableEq, Repr

/-- Contract for an evaluation object (`models.EvaluationV1`). -/
structure EvaluationV1 where
  score : Int
  strengths : List String
  missing_points : List String
  incorrect_points : List String
  ideal_answer : String
  improvement_tips : List String
  clarifying_questions : List String
  followup_question : String
deriving DecidableEq, Repr

/-- The declarative field-level rules of `CodingPayloadV1`:
language locked to python, non-empty starter code and tests, at least one
requirement. -/
def codingPayloadFieldOk (c : CodingPayloadV1) : Bool :=
  (c.language = "python" : Bool) && (c.starter_code ≠ "" : Bool) &&
    (c.requirements ≠ [] : Bool) && (c.tests ≠ "" : Bool)

/-- The declarative field-level rules of `QuestionV1`: difficulty 1..5,
non-empty question text, 6..10 expected points, exactly 3 followups and
red flags, and the nested payload rules when coding content is present. -/
def questionFieldOk (q : QuestionV1) : Bool :=
  (1 ≤ q.difficulty : Bool) && (q.difficulty ≤ 5 : Bool) &&
    (q.question ≠ "" : Bool) &&
    (6 ≤ q.expected_points.length : Bool) && (q.expected_points.length ≤ 10 : Bool) &&
    (q.followups.length = 3 : Bool) && (q.red_flags.length = 3 : Bool) &&
    (match q.coding with
     | none => true
     | some c => codingPayloadFieldOk c)

/-- The declarative field-level rules of `EvaluationV1`: score 0..100,
non-empty ideal answer, at most 3 clarifying questions. -/
def evaluationFieldOk (e : EvaluationV1) : Bool :=
  (0 ≤ e.score : Bool) && (e.score ≤ 100 : Bool) &&
    (e.ideal_answer ≠ "" : Bool) && (e.clarifying_questions.length ≤ 3 : Bool)

/-- Cross-field model validator `QuestionV1.validate_coding_rules`:
theory questions must not carry a coding payload, coding questions must. -/
def validate_coding_rules (q : QuestionV1) : Except String QuestionV1 :=
  if q.question_type = QuestionType.theory ∧ q.coding ≠ none then
    Except.error "coding must be null for theory questions"
  else if q.question_type = QuestionType.coding ∧ q.coding = none then
    Except.error "coding must be provided for coding questions"
  else Except.ok q

/-- Cross-field model validator `EvaluationV1.validate_followup_logic`,
branch for branch from the source. -/
def validate_followup_logic (e : EvaluationV1) : Except String EvaluationV1 :=
  if 0 < e.clarifying_questions.length then
    if 3 < e.clarifying_questions.length then
      Except.error "clarifying_questions cannot contain more than 3 items"
    else if e.followup_question ≠ "" then
      Except.error "followup_question must be empty when clarifying_questions are present"
    else if 60 < e.score then
      Except.error "score must be <= 60 when clarifying_questions are present"
    else Except.ok e
  else
    if e.score < 85 ∧ e.followup_question = "" then
      Except.error "followup_question is required when score is below 85"
    else if 85 ≤ e.score ∧ e.followup_question ≠ "" then
      Except.error "followup_question must be empty when score is 85 or above"
    else Except.ok e

/-- Full validation of an already-typed question object, in pydantic's
layering: all field-level rules first, the cross-field validator only once
they pass. -/
def validateQuestionObject (q : QuestionV1) : Except String QuestionV1 :=
  if questionFieldOk q then validate_coding_rules q
  else Except.error "field-level validation failed"

/-- Full validation of an already-typed evaluation object, in pydantic's
layering: all field-level rules first, the cross-field validator only once
they pass. -/
def validateEvaluationObject (e : EvaluationV1) : Except String EvaluationV1 :=
  if evaluationFieldOk e then validate_followup_logic e
  else Except.error "field-level validation failed"

/-- Whether an Except-valued validation succeeded. -/
def isOkE {ε α : Type} : Except ε α → Bool
  | Except.ok _ => true
  | Except.error _ => false

/-- Look a key up in a parsed JSON object (JSON decoding already collapsed
duplicate keys, so the first hit is the dict value). -/
def lookupMember (ms : List (String × JsonValue)) (k : String) : Option JsonValue :=
  match ms.find? (fun p => p.1 = k) with
  | some p => some p.2
  | none => none

/-- Coerce a JSON value to a string field, applying the model-wide
whitespace stripping (`str_strip_whitespace=True`). -/
def asStr : JsonValue → Except String String
  | JsonValue.str s => Except.ok (pyStripStr s)
  | _ => Except.error "Input should be a valid string"

/-- Coerce a JSON value to a non-empty string field (min_length=1,
checked after stripping). -/
def asNonEmptyStr (v : JsonValue) : Except String String := do
  let s ← asStr v
  if s = "" then Except.error "String should have at least 1 character"
  else Except.ok s

/-- Coerce a JSON value to a list of (stripped) strings. -/
def asStrList : JsonValue → Except String (List String)
  | JsonValue.arr items => items.mapM asStr
  | _ => Except.error "Input should be a valid list"

/-- Numeric digit run to a natural number. -/
def digitsToNat (ds : List Char) : Nat :=
  ds.foldl (fun a c => a * 10 + (c.toNat - 48)) 0

/-- Read an integer from a JSON number lexeme; lexemes with fractional or
exponent parts are not accepted as ints here. -/
def lexToInt (lex : String) : Option Int :=
  match lex.toList with
  | '-' :: ds =>
    if ds ≠ [] ∧ ds.all Char.isDigit then some (-(digitsToNat ds : Int)) else none
  | ds =>
    if ds ≠ [] ∧ ds.all Char.isDigit then some ((digitsToNat ds : Int)) else none

/-- Coerce a JSON value to an integer field. -/
def asInt : JsonValue → Except String Int
  | JsonValue.num lex =>
    match lexToInt lex with
    | some n => Except.ok n
    | none => Except.error "Input should be a valid integer"
  | _ => Except.error "Input should be a valid integer"

/-- A required field: look it up and convert, prefixing the field name to
any complaint. -/
def reqField {α : Type} (ms : List (String × JsonValue)) (k : String)
    (conv : JsonValue → Except String α) : Except String α :=
  match lookupMember ms k with
  | some v =>
    match conv v with
    | Except.ok a => Except.ok a
    | Except.error m => Except.error (k ++ ": " ++ m)
  | none => Except.error (k ++ ": Field required")

/-- The violation, if any, of one converted field. -/
def errsOf {α : Type} : Except String α → List String
  | Except.ok _ => []
  | Except.error m => [m]

/-- The declared field names of `EvaluationV1`. -/
def evalKeys : List String :=
  ["score", "strengths", "missing_points", "incorrect_points", "ideal_answer",
   "improvement_tips", "clarifying_questions", "followup_question"]

/-- `EvaluationV1.model_validate` on a parsed JSON object: reject unknown
keys, check every field-level rule, and only when all of them pass run the
cross-field validator.  Errors collect per-field violation messages. -/
def evaluationFromJson (ms : List (String × JsonValue)) :
    Except (List String) EvaluationV1 :=
  let extraErrs := (ms.filter (fun p => ¬ evalKeys.contains p.1)).map
    (fun p => p.1 ++ ": Extra inputs are not permitted")
  let scoreR := reqField ms "score" (fun v => do
    let n ← asInt v
    if 0 ≤ n ∧ n ≤ 100 then Except.ok n
    else Except.error "score must be between 0 and 100")
  let strengthsR := reqField ms "strengths" asStrList
  let missingR := reqField ms "missing_points" asStrList
  let incorrectR := reqField ms "incorrect_points" asStrList
  let idealR := reqField ms "ideal_answer" asNonEmptyStr
  let tipsR := reqField ms "improvement_tips" asStrList
  let clarR := reqField ms "clarifying_questions" (fun v => do
    let l ← asStrList v
    if l.length ≤ 3 then Except.ok l
    else Except.error "List should have at most 3 items after validation")
  let fupR : Except String String :=
    match lookupMember ms "followup_question" with
    | none => Except.ok ""
    | some v =>
      match asStr v with
      | Except.ok s => Except.ok s
      | Except.error m => Except.error ("followup_question: " ++ m)
  let fieldErrs := extraErrs ++ errsOf scoreR ++ errsOf strengthsR ++ errsOf missingR ++
    errsOf incorrectR ++ errsOf idealR ++ errsOf tipsR ++ errsOf clarR ++ errsOf fupR
  match scoreR, strengthsR, missingR, incorrectR, idealR, tipsR, clarR, fupR with
  | Except.ok sc, Except.ok st, Except.ok mp, Except.ok ip, Except.ok ia,
    Except.ok it, Except.ok cq, Except.ok fq =>
    if fieldErrs = [] then
      match validate_followup_logic ⟨sc, st, mp, ip, ia, it, cq, fq⟩ with
      | Except.ok e => Except.ok e
      | Except.error m => Except.error [m]
    else Except.error fieldErrs
  | _, _, _, _, _, _, _, _ => Except.error fieldErrs

/-- The declared field names of `CodingPayloadV1`. -/
def codingKeys : List String := ["language", "starter_code", "requirements", "tests"]

/-- `CodingPayloadV1.model_validate` on a parsed JSON object. -/
def codingFromJson (ms : List (String × JsonValue)) :
    Except (List String) CodingPayloadV1 :=
  let extraErrs := (ms.filter (fun p => ¬ codingKeys.contains p.1)).map
    (fun p => p.1 ++ ": Extra inputs are not permitted")
  let langR := reqField ms "language" (fun v => do
    let s ← asStr v
    if s = "python" then Except.ok s
    else Except.error "String should match pattern python")
  let starterR := reqField ms "starter_code" asNonEmptyStr
  let reqsR := reqField ms "requirements" (fun v => do
    let l ← asStrList v
    if l = [] then Except.error "List should have at least 1 item after validation"
    else Except.ok l)
  let testsR := reqField ms "tests" asNonEmptyStr
  let fieldErrs := extraErrs ++ errsOf langR ++ errsOf starterR ++ errsOf reqsR ++
    errsOf testsR
  match langR, starterR, reqsR, testsR with
  | Except.ok lg, Except.ok sc, Except.ok rq, Except.ok ts =>
    if fieldErrs = [] then Except.ok ⟨lg, sc, rq, ts⟩ else Except.error fieldErrs
  | _, _, _, _ => Except.error fieldErrs

/-- The declared field names of `QuestionV1`. -/
def questionKeys : List String :=
  ["track", "question_type", "difficulty", "question", "expected_points",
   "followups", "red_flags", "coding"]

/-- Coerce a JSON value to a `Track` enum member. -/
def asTrack (v : JsonValue) : Except String Track := do
  let s ← asStr v
  if s = "ai" then Except.ok Track.ai
  else if s = "backend" then Except.ok Track.backend
  else if s = "frontend" then Except.ok Track.frontend
  else Except.error "Input should be ai, backend or frontend"

/-- Coerce a JSON value to a `QuestionType` enum member. -/
def asQuestionType (v : JsonValue) : Except String QuestionType := do
  let s ← asStr v
  if s = "theory" then Except.ok QuestionType.theory
  else if s = "coding" then Except.ok QuestionType.coding
  else Except.error "Input should be theory or coding"

/-- A helper for lists of strings with an exact or bounded length. -/
def asStrListBetween (lo hi : Nat) (v : JsonValue) : Except String (List String) := do
  let l ← asStrList v
  if l.length < lo then Except.error "List should have enough items after validation"
  else if hi < l.length then Except.error "List should have fewer items after validation"
  else Except.ok l

/-- `QuestionV1.model_validate` on a parsed JSON object: unknown keys
rejected, field rules checked (including the nested coding payload), the
cross-field validator run last. -/
def questionFromJson (ms : List (String × JsonValue)) :
    Except (List String) QuestionV1 :=
  let extraErrs := (ms.filter (fun p => ¬ questionKeys.contains p.1)).map
    (fun p => p.1 ++ ": Extra inputs are not permitted")
  let trackR := reqField ms "track" asTrack
  let qtypeR := reqField ms "question_type" asQuestionType
  let diffR := reqField ms "difficulty" (fun v => do
    let n ← asInt v
    if 1 ≤ n ∧ n ≤ 5 then Except.ok n
    else Except.error "difficulty must be between 1 and 5")
  let questionR := reqField ms "question" asNonEmptyStr
  let pointsR := reqField ms "expected_points" (asStrListBetween 6 10)
  let followupsR := reqField ms "followups" (asStrListBetween 3 3)
  let flagsR := reqField ms "red_flags" (asStrListBetween 3 3)
  let codingR : Except (List String) (Option CodingPayloadV1) :=
    match lookupMember ms "coding" with
    | none => Except.ok none
    | some JsonValue.null => Except.ok none
    | some (JsonValue.obj cms) =>
      match codingFromJson cms with
      | Except.ok c => Except.ok (some c)
      | Except.error es => Except.error (es.map (fun m => "coding." ++ m))
    | some _ => Except.error ["coding: Input should be an object or null"]
  let codingErrs :=
    match codingR with
    | Except.ok _ => []
    | Except.error es => es
  let fieldErrs := extraErrs ++ errsOf trackR ++ errsOf qtypeR ++ errsOf diffR ++
    errsOf questionR ++ errsOf pointsR ++ errsOf followupsR ++ errsOf flagsR ++
    codingErrs
  match trackR, qtypeR, diffR, questionR, pointsR, followupsR, flagsR, codingR with
  | Except.ok tr, Except.ok qt, Except.ok df, Except.ok qu, Except.ok ep,
    Except.ok fu, Except.ok rf, Except.ok cd =>
    if fieldErrs = [] then
      match validate_coding_rules ⟨tr, qt, df, qu, ep, fu, rf, cd⟩ with
      | Except.ok q => Except.ok q
      | Except.error m => Except.error [m]
    else Except.error fieldErrs
  | _, _, _, _, _, _, _, _ => Except.error fieldErrs

/-- Pipeline target (`Target = Literal["question", "evaluation"]`). -/
inductive Target where
  | question : Target
  | evaluation : Target
deriving DecidableEq, Repr

/-- The validated object a pipeline run produces. -/
inductive ContractModel where
  | question (q : QuestionV1) : ContractModel
  | evaluation (e : EvaluationV1) : ContractModel
deriving DecidableEq, Repr

/-- `ParseFailure`: why parsing/validation of one raw output failed.  The
kind tag takes the source's literal values: json_decode, validation, or
value. -/
structure ParseFailure where
  kind : String
  message : String
  parsed_obj : Option (List (String × JsonValue)) := none
  validation_errors : Option (List String) := none

/-- Render a violation list into one human-readable message, standing in
for pydantic's `str(err)`. -/
def renderErrors (errs : List String) : String := String.intercalate "; " errs

/-- `_parse_and_validate` combined with the exception capture of
`_try_parse_and_validate`: extract JSON text, decode it, require a JSON
object, validate against the target contract.  On failure the
`ParseFailure` fields are exactly those the source attaches: the decoded
dict and the violation list accompany a validation failure only. -/
def parseAndValidateE (raw : String) (target : Target) :
    Except ParseFailure ContractModel :=
  match loads (extractJsonText raw) with
  | none => Except.error ⟨"json_decode", "Expecting value", none, none⟩
  | some (JsonValue.obj ms) =>
    match target with
    | Target.question =>
      match questionFromJson ms with
      | Except.ok q => Except.ok (ContractModel.question q)
      | Except.error errs =>
        Except.error ⟨"validation", renderErrors errs, some ms, some errs⟩
    | Target.evaluation =>
      match evaluationFromJson ms with
      | Except.ok e => Except.ok (ContractModel.evaluation e)
      | Except.error errs =>
        Except.error ⟨"validation", renderErrors errs, some ms, some errs⟩
  | some _ => Except.error ⟨"value", "output JSON must be an object", none, none⟩

/-- `_try_parse_and_validate`: `none` when the raw output parses and
validates, otherwise the captured failure. -/
def tryParseAndValidate (raw : String) (target : Target) : Option ParseFailure :=
  match parseAndValidateE raw target with
  | Except.ok _ => none
  | Except.error f => some f

/-- The structured repair payload `_build_repair_payload` assembles for
the repair-stage call (with the default configuration, which does not
embed the JSON schema). -/
structure RepairPayload where
  target : String
  raw_output : String
  error_kind : String
  error : String
  parsed_json_object : Option (List (String × JsonValue))
  validation_errors : Option (List String)

/-- `InterviewPipeline._build_repair_payload`. -/
def buildRepairPayload (targetSchemaName : String) (rawOutput : String)
    (failure : ParseFailure) : RepairPayload :=
  { target := targetSchemaName
    raw_output := rawOutput
    error_kind := failure.kind
    error := failure.message
    parsed_json_object := failure.parsed_obj
    validation_errors := failure.validation_errors }

/-- Call stage tag recorded in each call's metadata. -/
inductive Stage where
  | primary : Stage
  | repair : Stage
deriving DecidableEq, Repr

/-- The observable identity of one external LLM call: which attempt issued
it and at which stage (the rest of `_build_metadata` is bookkeeping derived
from the fixed request). -/
structure CallRecord where
  attempt : Nat
  stage : Stage
deriving DecidableEq, Repr

/-- Outcome of one external call: returned text, or the call itself raised
(transport/provider failure, `LLMClientError`). -/
inductive CallOutcome where
  | text (s : String) : CallOutcome
  | error : CallOutcome

/-- Result of a pipeline run, carrying the issued-call log:
a validated object, the terminal `PipelineExecutionError` (target, attempt
count, last failure message), or a propagated provider error. -/
inductive RunResult where
  | ok (m : ContractModel) (calls : List CallRecord) : RunResult
  | exhausted (target : Target) (attempts : Nat) (last_error : String)
      (calls : List CallRecord) : RunResult
  | providerError (calls : List CallRecord) : RunResult

/-- The call log of a run result. -/
def callsOf : RunResult → List CallRecord
  | RunResult.ok _ calls => calls
  | RunResult.exhausted _ _ _ calls => calls
  | RunResult.providerError calls => calls

/-- The loop body of `InterviewPipeline._run_with_repair`.  The external
client is a function from the number of calls already issued (calls are
strictly sequential) to that call's outcome.  Each iteration issues the
primary call; a validation success returns, a text-level failure issues the
repair call with its own parse step, and a second failure moves to the next
attempt carrying the repair failure as the last error.  A call that raises
propagates immediately as a provider error. -/
def runFrom (gen : Nat → CallOutcome) (target : Target) (maxAttempts : Nat) :
    Nat → Nat → List CallRecord → String → RunResult
  | _, 0, log, lastError => RunResult.exhausted target maxAttempts lastError log
  | attempt, r + 1, log, _lastError =>
    match gen log.length with
    | CallOutcome.error => RunResult.providerError (log ++ [⟨attempt, Stage.primary⟩])
    | CallOutcome.text raw =>
      let log1 := log ++ [⟨attempt, Stage.primary⟩]
      match parseAndValidateE raw target with
      | Except.ok m => RunResult.ok m log1
      | Except.error f =>
        let _primaryError := "primary failed [" ++ f.kind ++ "]: " ++ f.message
        match gen log1.length with
        | CallOutcome.error => RunResult.providerError (log1 ++ [⟨attempt, Stage.repair⟩])
        | CallOutcome.text rraw =>
          let log2 := log1 ++ [⟨attempt, Stage.repair⟩]
          match parseAndValidateE rraw target with
          | Except.ok m => RunResult.ok m log2
          | Except.error rf =>
            runFrom gen target maxAttempts (attempt + 1) r log2
              ("repair failed [" ++ rf.kind ++ "]: " ++ rf.message)

/-- `_run_with_repair` itself: attempts count from 1, the last error starts
out as the source's `"unknown error"`. -/
def runPipeline (gen : Nat → CallOutcome) (target : Target) (maxAttempts : Nat) :
    RunResult :=
  runFrom gen target maxAttempts 1 maxAttempts [] "unknown error"

/-- The call log of `k` fully failed attempts starting at attempt number
`a`: each contributes exactly one primary and one repair record. -/
def pairsFrom (a : Nat) : Nat → List CallRecord
  | 0 => []
  | k + 1 => pairsFrom a k ++ [⟨a + k, Stage.primary⟩, ⟨a + k, Stage.repair⟩]

/-- A raw model output that is a fully valid evaluation payload. -/
def evalOkStr : String :=
  "\x7b\"score\":90,\"strengths\":[],\"missing_points\":[],\"incorrect_points\":[],\"ideal_answer\":\"x\",\"improvement_tips\":[],\"clarifying_questions\":[],\"followup_question\":\"\"\x7d"

/-- The typed object `evalOkStr` validates to. -/
def e90 : EvaluationV1 := ⟨90, [], [], [], "x", [], [], ""⟩

/-- Scenario C payload: score 55, one clarifying question, empty followup. -/
def e55 : EvaluationV1 := ⟨55, [], [], [], "x", [], ["what stack?"], ""⟩

/-- Scenario C payload with the score raised to 75 (over the 60 cap). -/
def e75 : EvaluationV1 := ⟨75, [], [], [], "x", [], ["what stack?"], ""⟩

/-- A theory question with no coding payload, satisfying all field rules. -/
def qTheory : QuestionV1 :=
  ⟨Track.ai, QuestionType.theory, 3, "why?", ["a", "b", "c", "d", "e", "f"],
   ["f1", "f2", "f3"], ["r1", "r2", "r3"], none⟩

/-- A coding payload satisfying all field rules. -/
def codingOk : CodingPayloadV1 := ⟨"python", "def f(): pass", ["works"], "assert True"⟩

/-- A client whose every call returns undecodable text. -/
def genAllInvalid : Nat → CallOutcome := fun _ => CallOutcome.text "not json"

/-- A client whose every call returns a fully valid evaluation payload. -/
def genAllValid : Nat → CallOutcome := fun _ => CallOutcome.text evalOkStr

/-- A client whose every call raises a provider error. -/
def genProviderFails : Nat → CallOutcome := fun _ => CallOutcome.error

/-- The parse failure produced by undecodable raw output. -/
def decodeFailure : ParseFailure := ⟨"json_decode", "Expecting value", none, none⟩

/-! ## Claims -/

/-- C4: for every evaluation object that passes all field-level rules,
validation succeeds exactly when the cross-field policy holds: a non-empty
clarifying-question list forces an empty followup and a score of at most
60, and with no clarifying questions the score is below 85 exactly when a
followup question is present. -/
theorem evaluation_validation_iff_policy (e : EvaluationV1)
    (h : evaluationFieldOk e = true) :
    isOkE (validateEvaluationObject e) = true ↔
      ((e.clarifying_questions ≠ [] →
          e.followup_question = "" ∧ e.score ≤ 60) ∧
       (e.clarifying_questions = [] →
          (e.score < 85 ↔ e.followup_question ≠ ""))) := by
  have hlen : e.clarifying_questions.length ≤ 3 := by
    have h4 := h
    simp only [evaluationFieldOk, Bool.and_eq_true, decide_eq_true_eq] at h4
    exact h4.2
  unfold validateEvaluationObject
  rw [if_pos h]
  unfold validate_followup_logic
  by_cases hcl : e.clarifying_questions = []
  · have hnot : ¬ 0 < e.clarifying_questions.length := by simp [hcl]
    rw [if_neg hnot]
    by_cases hfq : e.followup_question = "" <;> by_cases hsc : e.score < 85
    · rw [if_pos ⟨hsc, hfq⟩]
      simp only [isOkE]
      exact iff_of_false Bool.false_ne_true (fun hr => (hr.2 hcl).mp hsc hfq)
    · rw [if_neg (fun hA => hsc hA.1), if_neg (fun hB => hB.2 hfq)]
      simp only [isOkE]
      exact iff_of_true trivial
        ⟨fun hne => absurd hcl hne, fun _ => iff_of_false hsc (fun hne => hne hfq)⟩
    · rw [if_neg (fun hA => hfq hA.2), if_neg (fun hB => absurd hB.1 (by omega))]
      simp only [isOkE]
      exact iff_of_true trivial
        ⟨fun hne => absurd hcl hne, fun _ => iff_of_true hsc hfq⟩
    · rw [if_neg (fun hA => hsc hA.1), if_pos ⟨by omega, hfq⟩]
      simp only [isOkE]
      exact iff_of_false Bool.false_ne_true (fun hr => hsc ((hr.2 hcl).mpr hfq))
  · have hpos : 0 < e.clarifying_questions.length := List.length_pos.mpr hcl
    rw [if_pos hpos, if_neg (by omega : ¬ 3 < e.clarifying_questions.length)]
    by_cases hfq : e.followup_question = ""
    · by_cases hsc : e.score ≤ 60
      · rw [if_neg (fun hB => hB hfq), if_neg (by omega : ¬ 60 < e.score)]
        simp only [isOkE]
        exact iff_of_true trivial
          ⟨fun _ => ⟨hfq, hsc⟩, fun hempty => absurd hempty hcl⟩
      · rw [if_neg (fun hB => hB hfq), if_pos (by omega : 60 < e.score)]
        simp only [isOkE]
        exact iff_of_false Bool.false_ne_true
          (fun hr => hsc (hr.1 hcl).2)
    · rw [if_pos hfq]
      simp only [isOkE]
      exact iff_of_false Bool.false_ne_true (fun hr => hfq (hr.1 hcl).1)

/-- C4 witness: the score-55 payload with one clarifying question and an
empty followup satisfies the field rules and, by the theorem, validates
(its policy holds); the same payload with score 75 fails validation. -/
theorem evaluation_validation_iff_policy_witness :
    evaluationFieldOk e55 = true ∧
    (isOkE (validateEvaluationObject e55) = true ↔
      ((e55.clarifying_questions ≠ [] →
          e55.followup_question = "" ∧ e55.score ≤ 60) ∧
       (e55.clarifying_questions = [] →
          (e55.score < 85 ↔ e55.followup_question ≠ "")))) ∧
    isOkE (validateEvaluationObject e55) = true ∧
    isOkE (validateEvaluationObject e75) = false :=
  ⟨by decide, evaluation_validation_iff_policy e55 (by decide), by decide, by decide⟩

/-- C5: for every question object that passes all field-level rules,
validation succeeds exactly when having question_type coding is equivalent
to the coding payload being present. -/
theorem question_validation_iff_coding_rule (q : QuestionV1)
    (h : questionFieldOk q = true) :
    isOkE (validateQuestionObject q) = true ↔
      (q.question_type = QuestionType.coding ↔ q.coding ≠ none) := by
  unfold validateQuestionObject
  rw [if_pos h]
  unfold validate_coding_rules
  rcases hqt : q.question_type <;> rcases hc : q.coding <;>
    simp [isOkE, hqt, hc]

/-- C5 witness: a field-rule-satisfying theory question without a coding
payload validates; attaching a payload to it, or switching it to coding
without a payload, each makes validation fail, while coding with a payload
passes — all four combinations by the theorem's equivalence. -/
theorem question_validation_iff_coding_rule_witness :
    questionFieldOk qTheory = true ∧
    (isOkE (validateQuestionObject qTheory) = true ↔
      (qTheory.question_type = QuestionType.coding ↔ qTheory.coding ≠ none)) ∧
    isOkE (validateQuestionObject qTheory) = true ∧
    isOkE (validateQuestionObject { qTheory with coding := some codingOk }) = false ∧
    isOkE (validateQuestionObject
      { qTheory with question_type := QuestionType.coding }) = false ∧
    isOkE (validateQuestionObject
      { qTheory with question_type := QuestionType.coding,
                     coding := some codingOk }) = true :=
  ⟨by decide, question_validation_iff_coding_rule qTheory (by decide),
   by decide, by decide, by decide, by decide⟩

/-- C10: once the field-level rules have passed (in particular the
declarative max length of 3 on clarifying_questions), the cross-field
branch complaining that clarifying_questions has more than 3 items can
never be the reported failure. -/
theorem clarifying_overflow_branch_unreachable (e : EvaluationV1)
    (h : evaluationFieldOk e = true) :
    validate_followup_logic e ≠
      Except.error "clarifying_questions cannot contain more than 3 items" := by
  have hlen : e.clarifying_questions.length ≤ 3 := by
    simp only [evaluationFieldOk, Bool.and_eq_true, decide_eq_true_eq] at h
    exact h.2
  unfold validate_followup_logic
  split_ifs with h0 h1 h2 h3 h4 h5 <;> intro hEq
  · omega
  · simp only [Except.error.injEq] at hEq
    exact absurd hEq (by decide)
  · simp only [Except.error.injEq] at hEq
    exact absurd hEq (by decide)
  · exact Except.noConfusion hEq
  · simp only [Except.error.injEq] at hEq
    exact absurd hEq (by decide)
  · simp only [Except.error.injEq] at hEq
    exact absurd hEq (by decide)
  · exact Except.noConfusion hEq

/-- C10 witness: the score-55 payload with one clarifying question passes
the field rules, so by the theorem the overflow branch is not its
failure. -/
theorem clarifying_overflow_branch_unreachable_witness :
    evaluationFieldOk e55 = true ∧
    validate_followup_logic e55 ≠
      Except.error "clarifying_questions cannot contain more than 3 items" :=
  ⟨by decide, clarifying_overflow_branch_unreachable e55 (by decide)⟩

/-! ### Extraction lemmas -/

theorem dropWhile_cons_of_neg {p : Char → Bool} {a : Char} {l : List Char}
    (h : p a = false) : (a :: l).dropWhile p = a :: l := by
  simp [List.dropWhile_cons, h]

/-- Stripping is the identity on text whose first and last characters are
not whitespace. -/
theorem pyStrip_of_ends {a d : Char} (m : List Char)
    (ha : isPyWs a = false) (hd : isPyWs d = false) :
    pyStrip (a :: (m ++ [d])) = a :: (m ++ [d]) := by
  unfold pyStrip
  rw [dropWhile_cons_of_neg ha]
  rw [show (a :: (m ++ [d])).reverse = d :: (m.reverse ++ [a]) by simp]
  rw [dropWhile_cons_of_neg hd]
  simp

/-- The leading-fence alternative cannot fire when the text does not start
with a backtick. -/
theorem stripLeadingFence_of_head {a : Char} (t : List Char) (h : a ≠ backtick) :
    stripLeadingFence (a :: t) = a :: t := by
  unfold stripLeadingFence
  rw [if_neg]
  intro hEq
  rw [show (a :: t).take 3 = a :: t.take 2 from rfl] at hEq
  exact h (((List.cons.injEq _ _ _ _).mp hEq).1)

/-- The trailing-fence alternative cannot fire when the text does not end
with a backtick. -/
theorem stripTrailingFence_of_last {d : Char} (m : List Char) (h : d ≠ backtick) :
    stripTrailingFence (m ++ [d]) = m ++ [d] := by
  have hcond : ¬ ((m ++ [d]).reverse.take 3 = [backtick, backtick, backtick]) := by
    rw [show (m ++ [d]).reverse = d :: m.reverse by simp]
    intro hEq
    rw [show (d :: m.reverse).take 3 = d :: m.reverse.take 2 from rfl] at hEq
    exact h (((List.cons.injEq _ _ _ _).mp hEq).1)
  simp only [stripTrailingFence]
  rw [if_neg hcond]

/-- Normalization is the identity on text whose first character is not
whitespace, a byte-order mark, or a backtick, and whose last character is
not whitespace or a backtick. -/
theorem normalizeRaw_of_ends {a d : Char} (m : List Char)
    (haw : isPyWs a = false) (hab : a ≠ backtick) (habom : a ≠ Char.ofNat 65279)
    (hdw : isPyWs d = false) (hdb : d ≠ backtick) :
    normalizeRaw (a :: (m ++ [d])) = a :: (m ++ [d]) := by
  simp only [normalizeRaw]
  rw [pyStrip_of_ends m haw hdw]
  rw [dropWhile_cons_of_neg (by simp [habom])]
  rw [stripLeadingFence_of_head _ hab]
  rw [show a :: (m ++ [d]) = (a :: m) ++ [d] from rfl]
  rw [stripTrailingFence_of_last _ hdb]
  rw [show (a :: m) ++ [d] = a :: (m ++ [d]) from rfl]
  exact pyStrip_of_ends m haw hdw

theorem firstIdxOf_cons (a c : Char) (t : List Char) :
    firstIdxOf c (a :: t) =
      if a = c then some 0 else (firstIdxOf c t).map (· + 1) := rfl

theorem firstIdxOf_cons_self (c : Char) (t : List Char) :
    firstIdxOf c (c :: t) = some 0 := by
  rw [firstIdxOf_cons, if_pos rfl]

/-- Finding a character across an append when the prefix avoids it. -/
theorem firstIdxOf_append {ch : Char} (l1 l2 : List Char)
    (h : ∀ c ∈ l1, c ≠ ch) :
    firstIdxOf ch (l1 ++ l2) = (firstIdxOf ch l2).map (· + l1.length) := by
  induction l1 with
  | nil =>
    simp only [List.nil_append, List.length_nil]
    cases firstIdxOf ch l2 <;> simp
  | cons a t ih =>
    have ha : a ≠ ch := h a (List.mem_cons_self a t)
    rw [List.cons_append, firstIdxOf_cons, if_neg ha,
      ih (fun c hc => h c (List.mem_cons_of_mem a hc))]
    cases firstIdxOf ch l2 with
    | none => simp
    | some i =>
      simp only [Option.map_some', Option.some.injEq, List.length_cons]
      omega

/-- C8: extraction is idempotent on already-clean single-object JSON text —
text that is exactly one brace-delimited object and decodes as JSON.  Such
text is extracted to itself, so a second extraction changes nothing. -/
theorem extract_idempotent_on_clean (s : String) (mid : List Char) (v : JsonValue)
    (hshape : s.toList = '{' :: (mid ++ ['}'])) (hparse : loadsL s.toList = some v) :
    extractJsonText (extractJsonText s) = extractJsonText s := by
  have hfix : extractJsonTextL s.toList = s.toList := by
    rw [hshape] at hparse ⊢
    have hlen : ('{' :: (mid ++ ['}'])).length = mid.length + 2 := by simp
    simp only [extractJsonTextL]
    rw [normalizeRaw_of_ends mid (by decide) (by decide) (by decide) (by decide) (by decide)]
    rw [firstIdxOf_cons_self]
    have hlast : lastIdxOf '}' ('{' :: (mid ++ ['}'])) = some (mid.length + 1) := by
      unfold lastIdxOf
      rw [show ('{' :: (mid ++ ['}'])).reverse = '}' :: (mid.reverse ++ ['{']) by simp]
      rw [firstIdxOf_cons_self]
      simp [hlen]
    rw [hlast]
    simp only [Option.map_some]
    rw [if_pos (by omega : 0 < mid.length + 1)]
    have hslice : sliceIncl 0 (mid.length + 1) ('{' :: (mid ++ ['}'])) =
        '{' :: (mid ++ ['}']) := by
      unfold sliceIncl
      rw [List.drop_zero]
      rw [show mid.length + 1 + 1 - 0 = ('{' :: (mid ++ ['}'])).length by simp]
      exact List.take_length _
    rw [hslice, hparse]
    simp
  unfold extractJsonText
  rw [hfix]
  rw [show (String.mk s.toList).toList = s.toList from rfl]
  rw [hfix]

/-- C8 witness: the clean object text decodes, and extraction on it is
idempotent by the theorem. -/
theorem extract_idempotent_on_clean_witness :
    extractJsonText (extractJsonText "\x7b\"a\":1\x7d") =
      extractJsonText "\x7b\"a\":1\x7d" :=
  extract_idempotent_on_clean "\x7b\"a\":1\x7d" "\"a\":1".toList
    (JsonValue.obj [("a", JsonValue.num "1")]) (by decide) (by rfl)

/-- C7: on input made of noise text, then a markdown-fenced JSON object,
then more noise text, extraction returns exactly the fenced object's
text.  Non-JSON noise is formalized as brace-free text whose outermost
characters are not whitespace, fence backticks, or byte-order marks (so
the noise is not itself trimmable padding). -/
theorem extract_fenced_object (b d : Char) (nb na mid : List Char) (v : JsonValue)
    (hbw : isPyWs b = false) (hbb : b ≠ backtick) (hbbom : b ≠ Char.ofNat 65279)
    (hdw : isPyWs d = false) (hdb : d ≠ backtick)
    (hnb : ∀ c ∈ b :: nb, c ≠ '{' ∧ c ≠ '}')
    (hna : ∀ c ∈ na ++ [d], c ≠ '{' ∧ c ≠ '}')
    (hparse : loadsL ('{' :: (mid ++ ['}'])) = some v) :
    extractJsonText (String.mk
      ((b :: nb) ++ fenceOpenChars ++ ('{' :: (mid ++ ['}'])) ++
        fenceCloseChars ++ (na ++ [d]))) =
      String.mk ('{' :: (mid ++ ['}'])) := by
  have hFOne : ∀ c ∈ fenceOpenChars, c ≠ '{' := by decide
  have hFCne : ∀ c ∈ fenceCloseChars.reverse, c ≠ '}' := by decide
  have hTcons : (b :: nb) ++ fenceOpenChars ++ ('{' :: (mid ++ ['}'])) ++
      fenceCloseChars ++ (na ++ [d]) =
      b :: ((nb ++ (fenceOpenChars ++ (('{' :: (mid ++ ['}'])) ++
        (fenceCloseChars ++ na)))) ++ [d]) := by
    simp [List.append_assoc]
  have hT2 : (b :: nb) ++ fenceOpenChars ++ ('{' :: (mid ++ ['}'])) ++
      fenceCloseChars ++ (na ++ [d]) =
      ((b :: nb) ++ fenceOpenChars) ++
        ('{' :: ((mid ++ ['}']) ++ (fenceCloseChars ++ (na ++ [d])))) := by
    simp [List.append_assoc]
  have hnorm : normalizeRaw ((b :: nb) ++ fenceOpenChars ++ ('{' :: (mid ++ ['}'])) ++
      fenceCloseChars ++ (na ++ [d])) =
      (b :: nb) ++ fenceOpenChars ++ ('{' :: (mid ++ ['}'])) ++
      fenceCloseChars ++ (na ++ [d]) := by
    rw [hTcons]
    exact normalizeRaw_of_ends _ hbw hbb hbbom hdw hdb
  have hPlen : ((b :: nb) ++ fenceOpenChars).length = nb.length + 10 := by
    simp [fenceOpenChars]
  have hfirst : firstIdxOf '{' ((b :: nb) ++ fenceOpenChars ++ ('{' :: (mid ++ ['}'])) ++
      fenceCloseChars ++ (na ++ [d])) = some (nb.length + 10) := by
    have hPne : ∀ c ∈ (b :: nb) ++ fenceOpenChars, c ≠ '{' := by
      intro c hc
      rcases List.mem_append.mp hc with h1 | h2
      · exact (hnb c h1).1
      · exact hFOne c h2
    rw [hT2, firstIdxOf_append _ _ hPne, firstIdxOf_cons_self]
    simp only [Option.map_some', Option.some.injEq]
    rw [hPlen]
    omega
  have hTlen : ((b :: nb) ++ fenceOpenChars ++ ('{' :: (mid ++ ['}'])) ++
      fenceCloseChars ++ (na ++ [d])).length =
      nb.length + mid.length + na.length + 18 := by
    simp [fenceOpenChars, fenceCloseChars]
    omega
  have hlast : lastIdxOf '}' ((b :: nb) ++ fenceOpenChars ++ ('{' :: (mid ++ ['}'])) ++
      fenceCloseChars ++ (na ++ [d])) = some (nb.length + mid.length + 11) := by
    have hQne : ∀ c ∈ d :: (na.reverse ++ fenceCloseChars.reverse), c ≠ '}' := by
      intro c hc
      rcases List.mem_cons.mp hc with h1 | h2
      · subst h1
        exact (hna c (by simp)).2
      · rcases List.mem_append.mp h2 with h3 | h4
        · exact (hna c (List.mem_append_left _ (List.mem_reverse.mp h3))).2
        · exact hFCne c h4
    have hTrev : ((b :: nb) ++ fenceOpenChars ++ ('{' :: (mid ++ ['}'])) ++
        fenceCloseChars ++ (na ++ [d])).reverse =
        (d :: (na.reverse ++ fenceCloseChars.reverse)) ++
          ('}' :: (mid.reverse ++ ('{' :: (fenceOpenChars.reverse ++
            (nb.reverse ++ [b]))))) := by
      simp [List.reverse_append]
    unfold lastIdxOf
    rw [hTrev, firstIdxOf_append _ _ hQne, firstIdxOf_cons_self]
    simp only [Option.map_some', Option.some.injEq]
    rw [hTlen]
    simp only [List.length_cons, List.length_append, List.length_reverse]
    rw [show fenceCloseChars.length = 5 from rfl]
    omega
  have hdrop : ((b :: nb) ++ fenceOpenChars ++ ('{' :: (mid ++ ['}'])) ++
      fenceCloseChars ++ (na ++ [d])).drop (nb.length + 10) =
      '{' :: ((mid ++ ['}']) ++ (fenceCloseChars ++ (na ++ [d]))) := by
    rw [hT2, show nb.length + 10 = ((b :: nb) ++ fenceOpenChars).length from hPlen.symm]
    exact List.drop_left _ _
  have hslice : sliceIncl (nb.length + 10) (nb.length + mid.length + 11)
      ((b :: nb) ++ fenceOpenChars ++ ('{' :: (mid ++ ['}'])) ++
        fenceCloseChars ++ (na ++ [d])) = '{' :: (mid ++ ['}']) := by
    unfold sliceIncl
    rw [hdrop]
    rw [show '{' :: ((mid ++ ['}']) ++ (fenceCloseChars ++ (na ++ [d]))) =
      ('{' :: (mid ++ ['}'])) ++ (fenceCloseChars ++ (na ++ [d])) by simp]
    rw [show nb.length + mid.length + 11 + 1 - (nb.length + 10) =
      ('{' :: (mid ++ ['}'])).length from by
        simp only [List.length_cons, List.length_append, List.length_nil]
        omega]
    exact List.take_left _ _
  have core : extractJsonTextL ((b :: nb) ++ fenceOpenChars ++ ('{' :: (mid ++ ['}'])) ++
      fenceCloseChars ++ (na ++ [d])) = '{' :: (mid ++ ['}']) := by
    simp only [extractJsonTextL]
    rw [hnorm]
    simp only [hfirst, hlast]
    rw [if_pos (by omega : nb.length + 10 < nb.length + mid.length + 11)]
    rw [hslice, hparse]
    simp
  exact congrArg String.mk core

/-- C7 witness: with the spec's example shape — noise before, then a fenced
two-member object, then noise after — extraction yields exactly the object
text, by the theorem. -/
theorem extract_fenced_object_witness :
    extractJsonText (String.mk
      (('n' :: "oise before".toList) ++ fenceOpenChars ++
        ('{' :: ("\"a\":1,\"b\":2".toList ++ ['}'])) ++
        fenceCloseChars ++ ("noise afte".toList ++ ['r']))) =
      String.mk ('{' :: ("\"a\":1,\"b\":2".toList ++ ['}'])) :=
  extract_fenced_object 'n' 'r' "oise before".toList "noise afte".toList
    "\"a\":1,\"b\":2".toList
    (JsonValue.obj [("a", JsonValue.num "1"), ("b", JsonValue.num "2")])
    (by decide) (by decide) (by decide) (by decide) (by decide)
    (by decide) (by decide) (by rfl)


/-! ### Retry-loop lemmas -/

/-- Peeling the first fully-failed attempt off a pair log. -/
theorem pairsFrom_succ_front (a k : Nat) :
    pairsFrom a (k + 1) =
      [⟨a, Stage.primary⟩, ⟨a, Stage.repair⟩] ++ pairsFrom (a + 1) k := by
  induction k with
  | zero => simp [pairsFrom]
  | succ k ih =>
    rw [show pairsFrom a (k + 1 + 1) =
      pairsFrom a (k + 1) ++ [⟨a + (k + 1), Stage.primary⟩, ⟨a + (k + 1), Stage.repair⟩]
      from rfl]
    rw [ih]
    rw [show pairsFrom (a + 1) (k + 1) =
      pairsFrom (a + 1) k ++ [⟨a + 1 + k, Stage.primary⟩, ⟨a + 1 + k, Stage.repair⟩]
      from rfl]
    rw [show a + (k + 1) = a + 1 + k by omega]
    simp

/-- The length of a pair log. -/
theorem pairsFrom_length (a k : Nat) : (pairsFrom a k).length = 2 * k := by
  induction k with
  | zero => simp [pairsFrom]
  | succ k ih =>
    rw [show pairsFrom a (k + 1) =
      pairsFrom a k ++ [⟨a + k, Stage.primary⟩, ⟨a + k, Stage.repair⟩] from rfl]
    simp [ih]
    omega

/-- C3: when the first primary call returns text that extracts and
validates successfully, the pipeline returns the validated object after
exactly one external call, logged as attempt 1 / stage primary; no repair
call is issued. -/
theorem first_primary_success_one_call (gen : Nat → CallOutcome) (target : Target)
    (maxAttempts : Nat) (s : String) (m : ContractModel)
    (hmax : 1 ≤ maxAttempts)
    (h0 : gen 0 = CallOutcome.text s)
    (hok : parseAndValidateE s target = Except.ok m) :
    runPipeline gen target maxAttempts = RunResult.ok m [⟨1, Stage.primary⟩] := by
  obtain ⟨r, rfl⟩ : ∃ r, maxAttempts = r + 1 := ⟨maxAttempts - 1, by omega⟩
  unfold runPipeline
  unfold runFrom
  rw [show ([] : List CallRecord).length = 0 from rfl, h0]
  simp only [hok]
  simp

set_option maxRecDepth 10000 in
/-- C3 witness: a client that always answers a valid evaluation payload
makes the pipeline return after the single primary call. -/
theorem first_primary_success_one_call_witness :
    runPipeline genAllValid Target.evaluation 3 =
      RunResult.ok (ContractModel.evaluation e90) [⟨1, Stage.primary⟩] :=
  first_primary_success_one_call genAllValid Target.evaluation 3 evalOkStr
    (ContractModel.evaluation e90) (by omega) rfl (by rfl)

/-- When every call returns text that fails extraction+validation, the
loop consumes every remaining attempt, logging one primary and one repair
record per attempt, and exhausts carrying the final repair failure. -/
theorem runFrom_all_fail (gen : Nat → CallOutcome) (target : Target)
    (maxAttempts : Nat)
    (hfail : ∀ i, ∃ s f, gen i = CallOutcome.text s ∧
      parseAndValidateE s target = Except.error f) :
    ∀ r a log err, ∃ E,
      runFrom gen target maxAttempts a r log err =
        RunResult.exhausted target maxAttempts E (log ++ pairsFrom a r) ∧
      ((r = 0 ∧ E = err) ∨
       (1 ≤ r ∧ ∃ s f, gen (log.length + 2 * r - 1) = CallOutcome.text s ∧
          parseAndValidateE s target = Except.error f ∧
          E = "repair failed [" ++ f.kind ++ "]: " ++ f.message)) := by
  intro r
  induction r with
  | zero =>
    intro a log err
    refine ⟨err, ?_, Or.inl ⟨rfl, rfl⟩⟩
    unfold runFrom
    simp [pairsFrom]
  | succ r ih =>
    intro a log err
    obtain ⟨s, f, hs, hf⟩ := hfail log.length
    obtain ⟨s2, f2, hs2, hf2⟩ := hfail (log.length + 1)
    obtain ⟨E, hrun, hE⟩ := ih (a + 1)
      ((log ++ [⟨a, Stage.primary⟩]) ++ [⟨a, Stage.repair⟩])
      ("repair failed [" ++ f2.kind ++ "]: " ++ f2.message)
    refine ⟨E, ?_, ?_⟩
    · unfold runFrom
      rw [hs]
      simp only [hf]
      rw [show (log ++ [(⟨a, Stage.primary⟩ : CallRecord)]).length = log.length + 1
        by simp]
      rw [hs2]
      simp only [hf2]
      rw [hrun]
      rw [pairsFrom_succ_front]
      simp
    · rcases hE with ⟨hr0, hEe⟩ | ⟨hr1, s3, f3, hg3, hp3, hEe⟩
      · subst hr0
        refine Or.inr ⟨by omega, s2, f2, ?_, hf2, hEe⟩
        rw [show log.length + 2 * 1 - 1 = log.length + 1 by omega]
        exact hs2
      · refine Or.inr ⟨by omega, s3, f3, ?_, hp3, hEe⟩
        rw [show ((log ++ [(⟨a, Stage.primary⟩ : CallRecord)]) ++
          [(⟨a, Stage.repair⟩ : CallRecord)]).length + 2 * r - 1 =
          log.length + 2 * (r + 1) - 1 by simp; omega] at hg3
        exact hg3

/-- C2: if every primary and repair output fails extraction+validation on
every attempt, the pipeline raises the terminal error carrying the target,
an attempt count equal to the configured maximum, and the last (repair)
failure message, after exactly two calls per attempt; no object is
returned. -/
theorem all_attempts_fail_exhausts (gen : Nat → CallOutcome) (target : Target)
    (maxAttempts : Nat) (hmax : 1 ≤ maxAttempts)
    (hfail : ∀ i, ∃ s f, gen i = CallOutcome.text s ∧
      parseAndValidateE s target = Except.error f) :
    ∃ E s f,
      runPipeline gen target maxAttempts =
        RunResult.exhausted target maxAttempts E (pairsFrom 1 maxAttempts) ∧
      (pairsFrom 1 maxAttempts).length = 2 * maxAttempts ∧
      gen (2 * maxAttempts - 1) = CallOutcome.text s ∧
      parseAndValidateE s target = Except.error f ∧
      E = "repair failed [" ++ f.kind ++ "]: " ++ f.message := by
  obtain ⟨E, hrun, hE⟩ := runFrom_all_fail gen target maxAttempts hfail
    maxAttempts 1 [] "unknown error"
  rcases hE with ⟨hr0, _⟩ | ⟨_, s, f, hg, hp, hEe⟩
  · omega
  · refine ⟨E, s, f, ?_, pairsFrom_length 1 maxAttempts, ?_, hp, hEe⟩
    · rw [runPipeline, hrun]
      simp
    · rw [show (2 : Nat) * maxAttempts - 1 =
        ([] : List CallRecord).length + 2 * maxAttempts - 1 by simp]
      exact hg

/-- C2 witness (Scenario B): with undecodable text on every call and two
attempts, the pipeline exhausts after exactly 4 calls with the error
carrying attempts = 2 and the final repair failure. -/
theorem all_attempts_fail_exhausts_witness :
    1 ≤ 2 ∧
    (∃ E s f,
      runPipeline genAllInvalid Target.evaluation 2 =
        RunResult.exhausted Target.evaluation 2 E (pairsFrom 1 2) ∧
      (pairsFrom 1 2).length = 2 * 2 ∧
      genAllInvalid (2 * 2 - 1) = CallOutcome.text s ∧
      parseAndValidateE s Target.evaluation = Except.error f ∧
      E = "repair failed [" ++ f.kind ++ "]: " ++ f.message) :=
  ⟨by omega, all_attempts_fail_exhausts genAllInvalid Target.evaluation 2 (by omega)
    (fun _ => ⟨"not json", decodeFailure, rfl, by rfl⟩)⟩

/-- A provider-errored primary call propagates immediately: after `k`
fully-failed attempts, an erroring primary on attempt `k + 1` ends the run
as a provider error with that call logged and no repair companion. -/
theorem runFrom_provider_error (gen : Nat → CallOutcome) (target : Target)
    (maxAttempts : Nat) :
    ∀ k r a log err, k < r →
      (∀ i, i < 2 * k → ∃ s f, gen (log.length + i) = CallOutcome.text s ∧
        parseAndValidateE s target = Except.error f) →
      gen (log.length + 2 * k) = CallOutcome.error →
      runFrom gen target maxAttempts a r log err =
        RunResult.providerError (log ++ pairsFrom a k ++ [⟨a + k, Stage.primary⟩]) := by
  intro k
  induction k with
  | zero =>
    intro r a log err hkr _ hgen
    obtain ⟨r2, rfl⟩ : ∃ r2, r = r2 + 1 := ⟨r - 1, by omega⟩
    rw [show log.length + 2 * 0 = log.length by omega] at hgen
    unfold runFrom
    rw [hgen]
    simp [pairsFrom]
  | succ k ih =>
    intro r a log err hkr hfail hgen
    obtain ⟨r2, rfl⟩ : ∃ r2, r = r2 + 1 := ⟨r - 1, by omega⟩
    obtain ⟨s, f, hs, hf⟩ := hfail 0 (by omega)
    obtain ⟨s2, f2, hs2, hf2⟩ := hfail 1 (by omega)
    rw [show log.length + 0 = log.length by omega] at hs
    have hfail2 : ∀ i, i < 2 * k → ∃ s3 f3,
        gen (((log ++ [(⟨a, Stage.primary⟩ : CallRecord)]) ++
          [(⟨a, Stage.repair⟩ : CallRecord)]).length + i) = CallOutcome.text s3 ∧
        parseAndValidateE s3 target = Except.error f3 := by
      intro i hi
      have h2 := hfail (i + 2) (by omega)
      rw [show ((log ++ [(⟨a, Stage.primary⟩ : CallRecord)]) ++
        [(⟨a, Stage.repair⟩ : CallRecord)]).length + i =
        log.length + (i + 2) by simp; omega]
      exact h2
    have hgen2 : gen (((log ++ [(⟨a, Stage.primary⟩ : CallRecord)]) ++
        [(⟨a, Stage.repair⟩ : CallRecord)]).length + 2 * k) = CallOutcome.error := by
      rw [show ((log ++ [(⟨a, Stage.primary⟩ : CallRecord)]) ++
        [(⟨a, Stage.repair⟩ : CallRecord)]).length + 2 * k =
        log.length + 2 * (k + 1) by simp; omega]
      exact hgen
    unfold runFrom
    rw [hs]
    simp only [hf]
    rw [show (log ++ [(⟨a, Stage.primary⟩ : CallRecord)]).length = log.length + 1
      by simp]
    rw [hs2]
    simp only [hf2]
    rw [ih r2 (a + 1) ((log ++ [(⟨a, Stage.primary⟩ : CallRecord)]) ++
      [(⟨a, Stage.repair⟩ : CallRecord)])
      ("repair failed [" ++ f2.kind ++ "]: " ++ f2.message) (by omega) hfail2 hgen2]
    rw [pairsFrom_succ_front]
    rw [show a + (k + 1) = a + 1 + k by omega]
    simp

/-- C9: a primary call that itself raises gets no repair companion call —
the provider error propagates at once, ending the run inside that attempt
(so the failed primary still consumed it); only returned-but-invalid text
triggers repair. -/
theorem provider_error_primary_no_repair (gen : Nat → CallOutcome) (target : Target)
    (maxAttempts k : Nat) (hk : k < maxAttempts)
    (hprev : ∀ i, i < 2 * k → ∃ s f, gen i = CallOutcome.text s ∧
      parseAndValidateE s target = Except.error f)
    (herr : gen (2 * k) = CallOutcome.error) :
    runPipeline gen target maxAttempts =
      RunResult.providerError (pairsFrom 1 k ++ [⟨k + 1, Stage.primary⟩]) := by
  have h1 : ∀ i, i < 2 * k → ∃ s f,
      gen (([] : List CallRecord).length + i) = CallOutcome.text s ∧
      parseAndValidateE s target = Except.error f := by
    simpa using hprev
  have h2 : gen (([] : List CallRecord).length + 2 * k) = CallOutcome.error := by
    simpa using herr
  rw [runPipeline, runFrom_provider_error gen target maxAttempts k maxAttempts 1 []
    "unknown error" hk h1 h2]
  rw [show 1 + k = k + 1 by omega]
  simp

/-- C9 witness: a client whose very first call raises ends the run as a
provider error after exactly that one primary call. -/
theorem provider_error_primary_no_repair_witness :
    runPipeline genProviderFails Target.evaluation 1 =
      RunResult.providerError (pairsFrom 1 0 ++ [⟨1, Stage.primary⟩]) :=
  provider_error_primary_no_repair genProviderFails Target.evaluation 1 0 (by omega)
    (fun i hi => absurd hi (by omega)) rfl

/-- Shape of the call log of any run: a block of fully-failed attempts,
each logging exactly one primary and one repair record, optionally
followed by one final primary-only record — and that lone primary is never
a text result that failed validation. -/
theorem runFrom_calls_shape (gen : Nat → CallOutcome) (target : Target)
    (maxAttempts : Nat) :
    ∀ r a log err,
      (∃ k, k ≤ r ∧ (1 ≤ r → 1 ≤ k) ∧
        callsOf (runFrom gen target maxAttempts a r log err) = log ++ pairsFrom a k) ∨
      (∃ k, k < r ∧
        callsOf (runFrom gen target maxAttempts a r log err) =
          log ++ pairsFrom a k ++ [⟨a + k, Stage.primary⟩] ∧
        (∀ s, gen (log.length + 2 * k) = CallOutcome.text s →
          isOkE (parseAndValidateE s target) = true)) := by
  intro r
  induction r with
  | zero =>
    intro a log err
    refine Or.inl ⟨0, by omega, by omega, ?_⟩
    unfold runFrom
    simp [callsOf, pairsFrom]
  | succ r ih =>
    intro a log err
    cases hgen : gen log.length with
    | error =>
      refine Or.inr ⟨0, by omega, ?_, ?_⟩
      · unfold runFrom
        rw [hgen]
        simp [callsOf, pairsFrom]
      · intro s hs
        rw [show log.length + 2 * 0 = log.length by omega, hgen] at hs
        exact CallOutcome.noConfusion hs
    | text s =>
      cases hp : parseAndValidateE s target with
      | ok m =>
        refine Or.inr ⟨0, by omega, ?_, ?_⟩
        · unfold runFrom
          rw [hgen]
          simp only [hp]
          simp [callsOf, pairsFrom]
        · intro s2 hs2
          rw [show log.length + 2 * 0 = log.length by omega, hgen] at hs2
          have hss : s = s2 := by
            injection hs2
          rw [← hss, hp]
          rfl
      | error f =>
        cases hgen2 : gen ((log ++ [(⟨a, Stage.primary⟩ : CallRecord)]).length) with
        | error =>
          refine Or.inl ⟨1, by omega, by omega, ?_⟩
          unfold runFrom
          rw [hgen]
          simp only [hp]
          rw [hgen2]
          simp [callsOf, pairsFrom]
        | text s2 =>
          cases hp2 : parseAndValidateE s2 target with
          | ok m2 =>
            refine Or.inl ⟨1, by omega, by omega, ?_⟩
            unfold runFrom
            rw [hgen]
            simp only [hp]
            rw [hgen2]
            simp only [hp2]
            simp [callsOf, pairsFrom]
          | error f2 =>
            have hred : runFrom gen target maxAttempts a (r + 1) log err =
                runFrom gen target maxAttempts (a + 1) r
                  ((log ++ [⟨a, Stage.primary⟩]) ++ [⟨a, Stage.repair⟩])
                  ("repair failed [" ++ f2.kind ++ "]: " ++ f2.message) := by
              conv_lhs => rw [runFrom]
              rw [hgen]
              simp only [hp]
              rw [hgen2]
              simp only [hp2]
            rcases ih (a + 1) ((log ++ [⟨a, Stage.primary⟩]) ++ [⟨a, Stage.repair⟩])
              ("repair failed [" ++ f2.kind ++ "]: " ++ f2.message) with
              ⟨k, hk, _, hcalls⟩ | ⟨k, hk, hcalls, hcond⟩
            · refine Or.inl ⟨k + 1, by omega, by omega, ?_⟩
              rw [hred, hcalls, pairsFrom_succ_front]
              simp
            · refine Or.inr ⟨k + 1, by omega, ?_, ?_⟩
              · rw [hred, hcalls, pairsFrom_succ_front]
                rw [show a + 1 + k = a + (k + 1) by omega]
                simp
              · intro s3 hs3
                apply hcond
                rw [show ((log ++ [(⟨a, Stage.primary⟩ : CallRecord)]) ++
                  [(⟨a, Stage.repair⟩ : CallRecord)]).length + 2 * k =
                  log.length + 2 * (k + 1) by simp; omega]
                exact hs3

/-- C1 (amended): every run makes between 1 and 2·max_attempts external
calls; the log is a block of primary/repair pairs — an attempt whose
primary output fails extraction+validation always costs exactly two calls
— optionally ended by a single primary-only call, and that final lone
primary is never a text result that failed validation. -/
theorem call_count_bounds (gen : Nat → CallOutcome) (target : Target)
    (maxAttempts : Nat) (hmax : 1 ≤ maxAttempts) :
    1 ≤ (callsOf (runPipeline gen target maxAttempts)).length ∧
    (callsOf (runPipeline gen target maxAttempts)).length ≤ 2 * maxAttempts ∧
    ((∃ k, 1 ≤ k ∧ k ≤ maxAttempts ∧
        callsOf (runPipeline gen target maxAttempts) = pairsFrom 1 k) ∨
     (∃ k, k < maxAttempts ∧
        callsOf (runPipeline gen target maxAttempts) =
          pairsFrom 1 k ++ [⟨k + 1, Stage.primary⟩] ∧
        (∀ s, gen (2 * k) = CallOutcome.text s →
          isOkE (parseAndValidateE s target) = true))) := by
  rcases runFrom_calls_shape gen target maxAttempts maxAttempts 1 [] "unknown error"
    with ⟨k, hk, hk1, hcalls⟩ | ⟨k, hk, hcalls, hcond⟩
  · rw [show callsOf (runPipeline gen target maxAttempts) =
      callsOf (runFrom gen target maxAttempts 1 maxAttempts [] "unknown error")
      from rfl, hcalls]
    simp only [List.nil_append]
    refine ⟨?_, ?_, Or.inl ⟨k, hk1 hmax, hk, rfl⟩⟩
    · rw [pairsFrom_length]
      have := hk1 hmax
      omega
    · rw [pairsFrom_length]
      omega
  · rw [show callsOf (runPipeline gen target maxAttempts) =
      callsOf (runFrom gen target maxAttempts 1 maxAttempts [] "unknown error")
      from rfl, hcalls]
    simp only [List.nil_append]
    refine ⟨?_, ?_, Or.inr ⟨k, hk, ?_, ?_⟩⟩
    · simp
    · rw [List.length_append, pairsFrom_length]
      simp
      omega
    · rw [show 1 + k = k + 1 by omega]
    · intro s hs
      exact hcond s (by simpa using hs)

set_option maxRecDepth 10000 in
/-- C1 counterexample: with max_attempts = 3 and a first primary that
validates, the run makes exactly 1 external call — fewer than max_attempts
— refuting the claimed lower bound of max_attempts calls. -/
theorem call_count_lower_bound_counterexample :
    (callsOf (runPipeline genAllValid Target.evaluation 3)).length = 1 ∧
    ¬ (3 ≤ (callsOf (runPipeline genAllValid Target.evaluation 3)).length) := by
  have h1 : (callsOf (runPipeline genAllValid Target.evaluation 3)).length = 1 := by
    rw [first_primary_success_one_call genAllValid Target.evaluation 3 evalOkStr
      (ContractModel.evaluation e90) (by omega) rfl (by rfl)]
    rfl
  exact ⟨h1, by rw [h1]; omega⟩

/-- C1 witness: the amended bounds instantiated at an always-invalid
client with one configured attempt. -/
theorem call_count_bounds_witness :
    1 ≤ (callsOf (runPipeline genAllInvalid Target.evaluation 1)).length ∧
    (callsOf (runPipeline genAllInvalid Target.evaluation 1)).length ≤ 2 * 1 ∧
    ((∃ k, 1 ≤ k ∧ k ≤ 1 ∧
        callsOf (runPipeline genAllInvalid Target.evaluation 1) = pairsFrom 1 k) ∨
     (∃ k, k < 1 ∧
        callsOf (runPipeline genAllInvalid Target.evaluation 1) =
          pairsFrom 1 k ++ [⟨k + 1, Stage.primary⟩] ∧
        (∀ s, genAllInvalid (2 * k) = CallOutcome.text s →
          isOkE (parseAndValidateE s Target.evaluation) = true))) :=
  call_count_bounds genAllInvalid Target.evaluation 1 (by omega)

/-- C6 (amended): every repair payload built from a failed
extraction+validation carries the requested schema name, the raw model
output, the human-readable failure message, and a failure-kind tag drawn
from the source's literal values json_decode, validation, value (not the
spec's decode / validation / shape); the best-effort decoded object and
the per-field violation list accompany exactly the validation-kind
failures. -/
theorem repair_payload_shape (raw : String) (target : Target) (name : String)
    (f : ParseFailure) (h : tryParseAndValidate raw target = some f) :
    ((buildRepairPayload name raw f).error_kind = "json_decode" ∨
     (buildRepairPayload name raw f).error_kind = "validation" ∨
     (buildRepairPayload name raw f).error_kind = "value") ∧
    (buildRepairPayload name raw f).target = name ∧
    (buildRepairPayload name raw f).raw_output = raw ∧
    (buildRepairPayload name raw f).error = f.message ∧
    ((buildRepairPayload name raw f).error_kind = "validation" →
      (buildRepairPayload name raw f).parsed_json_object.isSome = true ∧
      (buildRepairPayload name raw f).validation_errors.isSome = true) ∧
    ((buildRepairPayload name raw f).error_kind = "json_decode" ∨
     (buildRepairPayload name raw f).error_kind = "value" →
      (buildRepairPayload name raw f).parsed_json_object = none ∧
      (buildRepairPayload name raw f).validation_errors = none) := by
  have hshape :
      (f.kind = "json_decode" ∧ f.parsed_obj = none ∧ f.validation_errors = none) ∨
      (f.kind = "validation" ∧ f.parsed_obj.isSome = true ∧
        f.validation_errors.isSome = true) ∨
      (f.kind = "value" ∧ f.parsed_obj = none ∧ f.validation_errors = none) := by
    unfold tryParseAndValidate parseAndValidateE at h
    rcases hl : loads (extractJsonText raw) with _ | data
    · rw [hl] at h
      simp only [Option.some.injEq] at h
      subst h
      exact Or.inl ⟨rfl, rfl, rfl⟩
    · rw [hl] at h
      rcases data with _ | b | lx | st | items | ms
      · simp only [Option.some.injEq] at h
        subst h
        exact Or.inr (Or.inr ⟨rfl, rfl, rfl⟩)
      · simp only [Option.some.injEq] at h
        subst h
        exact Or.inr (Or.inr ⟨rfl, rfl, rfl⟩)
      · simp only [Option.some.injEq] at h
        subst h
        exact Or.inr (Or.inr ⟨rfl, rfl, rfl⟩)
      · simp only [Option.some.injEq] at h
        subst h
        exact Or.inr (Or.inr ⟨rfl, rfl, rfl⟩)
      · simp only [Option.some.injEq] at h
        subst h
        exact Or.inr (Or.inr ⟨rfl, rfl, rfl⟩)
      · cases target with
        | question =>
          cases hq : questionFromJson ms with
          | ok q =>
            simp [hq] at h
          | error errs =>
            simp only [hq, Option.some.injEq] at h
            subst h
            exact Or.inr (Or.inl ⟨rfl, rfl, rfl⟩)
        | evaluation =>
          cases hq : evaluationFromJson ms with
          | ok e =>
            simp [hq] at h
          | error errs =>
            simp only [hq, Option.some.injEq] at h
            subst h
            exact Or.inr (Or.inl ⟨rfl, rfl, rfl⟩)
  simp only [buildRepairPayload]
  rcases hshape with ⟨hk, hp, hv⟩ | ⟨hk, hp, hv⟩ | ⟨hk, hp, hv⟩
  · exact ⟨Or.inl hk, trivial, trivial, trivial,
      fun hval => absurd (hk.symm.trans hval) (by decide),
      fun _ => ⟨hp, hv⟩⟩
  · refine ⟨Or.inr (Or.inl hk), trivial, trivial, trivial, fun _ => ⟨hp, hv⟩,
      fun hcon => ?_⟩
    rcases hcon with hx | hx
    · exact absurd (hk.symm.trans hx) (by decide)
    · exact absurd (hk.symm.trans hx) (by decide)
  · exact ⟨Or.inr (Or.inr hk), trivial, trivial, trivial,
      fun hval => absurd (hk.symm.trans hval) (by decide),
      fun _ => ⟨hp, hv⟩⟩

/-- C6 counterexample: undecodable raw output yields the failure-kind tag
json_decode, which is none of the spec's claimed tag values decode,
validation, shape. -/
theorem repair_payload_kind_counterexample :
    (tryParseAndValidate "not json" Target.evaluation).isSome = true ∧
    (tryParseAndValidate "not json" Target.evaluation).map
      (fun f => (buildRepairPayload "EvaluationJSON" "not json" f).error_kind) =
      some "json_decode" ∧
    ¬ ("json_decode" = "decode" ∨ "json_decode" = "validation" ∨
       "json_decode" = "shape") :=
  ⟨by rfl, by rfl, by decide⟩

/-- C6 witness: the amended payload shape instantiated at the concrete
decode failure produced by undecodable raw output. -/
theorem repair_payload_shape_witness :
    tryParseAndValidate "not json" Target.evaluation = some decodeFailure ∧
    (((buildRepairPayload "EvaluationJSON" "not json" decodeFailure).error_kind =
        "json_decode" ∨
      (buildRepairPayload "EvaluationJSON" "not json" decodeFailure).error_kind =
        "validation" ∨
      (buildRepairPayload "EvaluationJSON" "not json" decodeFailure).error_kind =
        "value") ∧
     (buildRepairPayload "EvaluationJSON" "not json" decodeFailure).target =
       "EvaluationJSON" ∧
     (buildRepairPayload "EvaluationJSON" "not json" decodeFailure).raw_output =
       "not json" ∧
     (buildRepairPayload "EvaluationJSON" "not json" decodeFailure).error =
       decodeFailure.message ∧
     ((buildRepairPayload "EvaluationJSON" "not json" decodeFailure).error_kind =
        "validation" →
       (buildRepairPayload "EvaluationJSON" "not json"
         decodeFailure).parsed_json_object.isSome = true ∧
       (buildRepairPayload "EvaluationJSON" "not json"
         decodeFailure).validation_errors.isSome = true) ∧
     ((buildRepairPayload "EvaluationJSON" "not json" decodeFailure).error_kind =
        "json_decode" ∨
      (buildRepairPayload "EvaluationJSON" "not json" decodeFailure).error_kind =
        "value" →
       (buildRepairPayload "EvaluationJSON" "not json"
         decodeFailure).parsed_json_object = none ∧
       (buildRepairPayload "EvaluationJSON" "not json"
         decodeFailure).validation_errors = none)) :=
  ⟨by rfl, repair_payload_shape "not json" Target.evaluation "EvaluationJSON"
    decodeFailure (by rfl)⟩

end InterviewLab
